import Mathlib

/-
Verification of the busoc/cadus tools against their specification.

The Go sources are shallowly embedded below: byte streams are `List Nat`
(each element an octet value < 256), 16/24/32-bit machine arithmetic is
`Nat` with explicit masks and `% 2^w` where overflow matters, and the
stateful reader is modelled as an explicit state-passing function with a
fuel parameter bounding its internal loops.
-/

set_option maxRecDepth 20000

namespace Cadus

/-- HRDL sync word bytes, `Word` in the Go source: F8 2E 35 53. -/
def Word : List Nat := [0xf8, 0x2e, 0x35, 0x53]

/-- Bit-stuffing marker bytes, `Stuff` in the Go source: F8 2E 35 AA. -/
def Stuff : List Nat := [0xf8, 0x2e, 0x35, 0xaa]

/-- First three bytes of the sync word, `Word[:3]`, the replacement text
used when destuffing. -/
def Word3 : List Nat := [0xf8, 0x2e, 0x35]

/-- CADU header length in octets (including the 4-octet sync word). -/
def caduHeaderLen : Nat := 14

/-- CADU trailing CRC length in octets. -/
def caduCheckLen : Nat := 2

/-- Total CADU length in octets. -/
def caduPacketLen : Nat := 1024

/-- CADU payload (body) length: 1024 - 14 - 2 = 1008. -/
def caduBodyLen : Nat := caduPacketLen - caduHeaderLen - caduCheckLen

/-- Search-window offset used by the reassembler: `caduBodyLen + 4`. -/
def defaultOffset : Nat := caduBodyLen + 4

/-- Little-endian 32-bit value read at offset `i` of a byte list
(`binary.LittleEndian.Uint32`). -/
def le32at (s : List Nat) (i : Nat) : Nat :=
  s.getD i 0 + 256 * s.getD (i + 1) 0 + 65536 * s.getD (i + 2) 0 +
    16777216 * s.getD (i + 3) 0

/-- Big-endian 16-bit value read at offset `i` of a byte list. -/
def be16at (s : List Nat) (i : Nat) : Nat :=
  256 * s.getD i 0 + s.getD (i + 1) 0

/-- Big-endian 32-bit value read at offset `i` of a byte list. -/
def be32at (s : List Nat) (i : Nat) : Nat :=
  16777216 * s.getD i 0 + 65536 * s.getD (i + 1) 0 + 256 * s.getD (i + 2) 0 +
    s.getD (i + 3) 0

/-- CCITT CRC-16 initial value, `CCITT` in the Go source. -/
def CCITT : Nat := 0xFFFF

/-- CCITT CRC-16 polynomial, `POLY` in the Go source. -/
def POLY : Nat := 0x1021

/-- One shift-and-conditional-xor round of the bit-serial CCITT loop body,
on a 16-bit accumulator (`if crc & 0x8000 > 0 then crc = crc<<1 ^ POLY else
crc = crc<<1`, in uint16 arithmetic). -/
def crcShift (c : Nat) : Nat :=
  if c &&& 0x8000 > 0 then ((c <<< 1) % 65536) ^^^ POLY else (c <<< 1) % 65536

/-- Iterated `crcShift`, `n` rounds. -/
def crcRounds : Nat → Nat → Nat
  | 0, c => c
  | n + 1, c => crcRounds n (crcShift c)

/-- Absorb one octet into the CRC accumulator, the loop body shared by
`ccittSum.Write` and `calculateCRC`: `crc ^= uint16(b) << 8` then eight
rounds of `crcShift`. -/
def crcByte (c b : Nat) : Nat := crcRounds 8 (c ^^^ ((b <<< 8) % 65536))

/-- Streaming accumulator `ccittSum.Write`: fold the octets of one chunk
into the running 16-bit sum. -/
def ccittWrite (c : Nat) (bs : List Nat) : Nat := bs.foldl crcByte c

/-- One-shot CRC, `calculateCRC` in the Go source (identical in part_001
and part_002): fold all octets starting from `CCITT`. -/
def calculateCRC (bs : List Nat) : Nat := ccittWrite CCITT bs

/-- Modelled from the spec's wording of the CRC recurrence (§4.1): for each
octet, `crc ^= (octet << 8)`; then for 8 iterations, if `crc & 0x8000` then
`crc = (crc << 1) ^ 0x1021` else `crc <<= 1`, on a 16-bit crc. -/
def crcSpecIter : Nat → Nat → Nat
  | 0, crc => crc
  | n + 1, crc =>
    crcSpecIter n
      (if crc &&& 0x8000 = 0 then (crc <<< 1) % 65536
       else ((crc <<< 1) % 65536) ^^^ 0x1021)

/-- Modelled from the spec: absorbing one octet per the spec's recurrence. -/
def crcSpecOctet (crc octet : Nat) : Nat :=
  crcSpecIter 8 (crc ^^^ ((octet <<< 8) % 65536))

/-- Masked 24-bit delta of two 32-bit sequence values: uint32 subtraction
`c - p` followed by `& 0xFFFFFF`, as in `Cadu.Missing` (part_000). -/
def missingDelta (c p : Nat) : Nat :=
  if ((c + 4294967296 - p) % 4294967296) &&& 0xFFFFFF > 1
  then ((c + 4294967296 - p) % 4294967296) &&& 0xFFFFFF else 0

/-- Body of `Cadu.Missing` for a present previous CADU: if
`p.Sequence > c.Sequence` the roles are swapped (`p.Missing(c)`), then the
masked delta is returned when it exceeds 1. -/
def missingPair (c p : Nat) : Nat :=
  if p > c then missingDelta p c else missingDelta c p

/-- Gap tracker `Cadu.Missing` (part_000 lines 73-84): 0 when the previous
CADU is absent, otherwise the swapped masked delta of the two sequences. -/
def Missing (c : Nat) (p : Option Nat) : Nat :=
  match p with
  | none => 0
  | some ps => missingPair c ps

/-- Modelled from the spec's words for claim C2: order the pair by sequence
ascending (swap when `previous.sequence > current.sequence`), compute
`delta = (current.sequence - previous.sequence) & 0xFFFFFF` in uint32
arithmetic, return `delta` if `delta > 1`, else 0; 0 when previous is none. -/
def missingSpec (c : Nat) (p : Option Nat) : Nat :=
  match p with
  | none => 0
  | some ps =>
    if (((if ps > c then ps else c) + 4294967296 - (if ps > c then c else ps)) %
          4294967296) &&& 0xFFFFFF > 1
    then (((if ps > c then ps else c) + 4294967296 - (if ps > c then c else ps)) %
          4294967296) &&& 0xFFFFFF
    else 0

/-- HRDL per-key gap delta, `sequenceDelta` in part_001 (lines 285-293):
0 when `current` is exactly `last + 1` in uint32 arithmetic, `current -
last` when `current > last`, and 0 otherwise. -/
def sequenceDelta (current last : Nat) : Nat :=
  if current = (last + 1) % 4294967296 then 0
  else if current > last then current - last
  else 0

/-- Modelled from the spec's words for claim C8: `delta(seq, last)` is 0 if
`seq == last + 1` (32-bit), else `seq - last` if `seq > last`, else 0. -/
def sequenceDeltaSpec (current last : Nat) : Nat :=
  if current = (last + 1) % 4294967296 then 0
  else if last < current then current - last
  else 0

/-- Mask by 0xFFFFFF is reduction modulo 2^24. -/
theorem and_mask24 (x : Nat) : x &&& 0xFFFFFF = x % 16777216 := by
  have h := Nat.and_pow_two_sub_one_eq_mod x 24
  norm_num at h
  omega

/-- Folding one chunk after another equals folding the concatenation. -/
theorem ccittWrite_append (c : Nat) (xs ys : List Nat) :
    ccittWrite c (xs ++ ys) = ccittWrite (ccittWrite c xs) ys := by
  simp [ccittWrite, List.foldl_append]

/-- Folding a list of chunks equals one fold over the flattened stream. -/
theorem ccittWrite_flatten (chunks : List (List Nat)) :
    ∀ c : Nat, chunks.foldl ccittWrite c = ccittWrite c chunks.flatten := by
  induction chunks with
  | nil => intro c; simp [ccittWrite]
  | cons ch t ih =>
    intro c
    simp only [List.foldl_cons, List.flatten_cons]
    rw [ih, ccittWrite_append]

/-- Code round equals the spec's round. -/
theorem crcShift_spec (c : Nat) :
    crcShift c =
      (if c &&& 0x8000 = 0 then (c <<< 1) % 65536
       else ((c <<< 1) % 65536) ^^^ 0x1021) := by
  by_cases h : c &&& 0x8000 = 0 <;> simp [crcShift, POLY, h, Nat.pos_iff_ne_zero]

/-- Iterated code rounds equal the spec's iteration. -/
theorem crcRounds_spec (n : Nat) : ∀ c : Nat, crcRounds n c = crcSpecIter n c := by
  induction n with
  | zero => intro c; rfl
  | succ m ih =>
    intro c
    rw [crcRounds, crcSpecIter, ← crcShift_spec, ih]

/-- Decoded CADU header (struct `Header` in part_000). -/
structure Header where
  word : Nat
  version : Nat
  space : Nat
  channel : Nat
  sequence : Nat
  replay : Bool
  control : Nat
  data : Nat

/-- Decoded CADU (struct `Cadu` in part_000): header, 1008-octet payload,
the frame's trailing CRC field (`Cadu.Control`), and the optional checksum
mismatch `(want, got)` recorded in `Cadu.Error`. -/
structure Cadu where
  header : Header
  payload : List Nat
  control : Nat
  error : Option (Nat × Nat)

/-- Sequence and replay decoding from the 4-octet big-endian word, exactly
as `decodeCadu` does it: `h.Sequence = seq >> 8` and
`h.Replay = ((seq >> 7) == 1)`. -/
def decodeSeqReplay (seq : Nat) : Nat × Bool :=
  (seq >>> 8, seq >>> 7 == 1)

/-- Octets of a frame that `decodeCadu` streams through the CRC
accumulator: everything strictly between the 4-octet sync word and the
2-octet trailing CRC (pid, sequence word, control, data pointer, payload). -/
def coveredRegion (s : List Nat) : List Nat := (s.take 1022).drop 4

/-- CADU decoder `decodeCadu` (part_000 lines 373-411): consumes the
1024-octet frame, decodes the bit-packed header, computes the CCITT sum of
the covered region (the Go code streams it chunk by chunk through
`ccittSum.Write`, which by `ccittWrite_flatten` equals the one-shot fold),
and records a checksum mismatch without failing. `none` only when fewer
than 1024 octets are available. -/
def decodeCadu (s : List Nat) : Option Cadu :=
  if s.length < caduPacketLen then none
  else
    let pid := be16at s 4
    let seq := be32at s 6
    let sr := decodeSeqReplay seq
    let crc := be16at s 1022
    let got := calculateCRC (coveredRegion s)
    some
      { header :=
          { word := be32at s 0
            version := (pid &&& 0xC000) >>> 14
            space := (pid &&& 0x3FC0) >>> 6
            channel := pid &&& 0x3F
            sequence := sr.1
            replay := sr.2
            control := be16at s 10
            data := be16at s 12 }
        payload := (s.drop 14).take 1008
        control := crc
        error := if got ≠ crc then some (crc, got) else none }

/-- Scan of `bytes.Index` carrying the running position: first position at
or after `acc` where `pat` occurs as a contiguous run. -/
def indexOfSubFrom (pat : List Nat) : Nat → List Nat → Option Nat
  | _, [] => none
  | acc, x :: xs =>
    if pat.isPrefixOf (x :: xs) then some acc else indexOfSubFrom pat (acc + 1) xs

/-- Index of the first occurrence of `pat` as a contiguous run
(`bytes.Index`; the patterns used by the source are all nonempty). -/
def indexOfSub (pat : List Nat) (xs : List Nat) : Option Nat :=
  indexOfSubFrom pat 0 xs

/-- Destuffing `bytes.Replace(xs, Stuff, Word[:3], -1)`: every
non-overlapping occurrence of F8 2E 35 AA becomes F8 2E 35, scanning left
to right. The patterns are fixed to the only instance the source uses. -/
def destuff : List Nat → List Nat
  | 0xf8 :: 0x2e :: 0x35 :: 0xaa :: xs => 0xf8 :: 0x2e :: 0x35 :: destuff xs
  | x :: xs => x :: destuff xs
  | [] => []

/-- Semantics of Go `copy(dst, src)` on byte slices: the first
`min (length src) (length dst)` octets of `dst` are overwritten by `src`,
the rest of `dst` (and its length) are kept. -/
def copyInto (dst src : List Nat) : List Nat :=
  src.take dst.length ++ dst.drop (min src.length dst.length)

/-- Start offset of the sync-word search window in `copyHRDL`:
`len(xs) - defaultOffset`, clamped to `len(Word) = 4` when not positive. -/
def chOffset (xs : List Nat) : Nat :=
  if xs.length ≤ defaultOffset then 4 else xs.length - defaultOffset

/-- Reassembler emission step `reader.copyHRDL` (part_001 lines 351-372):
requires at least 8 buffered octets starting with the sync word, finds the
next sync word from `chOffset`, emits `xs[:min(size+12, z)]` where `size`
is the little-endian length field at offset 4, and retains `xs[z:]`.
Returns the emitted slice and the retained tail. -/
def copyHRDL (xs : List Nat) : Option (List Nat × List Nat) :=
  if xs.length < 8 ∨ ¬ Word.isPrefixOf xs then none
  else
    match indexOfSub Word (xs.drop (chOffset xs)) with
    | none => none
    | some ix =>
      some (xs.take (min (le32at xs 4 + 12) (ix + chOffset xs)),
            xs.drop (ix + chOffset xs))

/-- Frame reader `reader.readCadu` with `hrdfe = false`: consume one
1024-octet CADU from the input and return its 1008-octet body
(`vs[caduHeaderLen : caduPacketLen - caduCheckLen]`). -/
def readCadu (inp : List Nat) : Option (List Nat × List Nat) :=
  if inp.length < caduPacketLen then none
  else
    some (((inp.take caduPacketLen).drop caduHeaderLen).take caduBodyLen,
          inp.drop caduPacketLen)

/-- First loop of `reader.Read` (part_001): append bodies until the sync
word appears somewhere in the buffer, then destuff the buffer from that
index onward (`xs = bytes.Replace(xs[ix:], Stuff, Word[:3], -1)`). -/
def readLoop1 : Nat → List Nat → List Nat → Option (List Nat × List Nat)
  | 0, _, _ => none
  | fuel + 1, xs, inp =>
    match readCadu inp with
    | none => none
    | some (vs, inp1) =>
      match indexOfSub Word (xs ++ vs) with
      | some ix => some (destuff ((xs ++ vs).drop ix), inp1)
      | none => readLoop1 fuel (xs ++ vs) inp1

/-- In-place window destuff performed by the second loop of `reader.Read`:
`copy(xs[offset:], bytes.Replace(xs[offset:], Stuff, Word[:3], -1))` with
`offset = max(len(xs) - caduPacketLen, 0)`. Go's `copy` keeps the buffer
length, so the destuffed (shorter) window is written over the old window
and the old trailing octets survive past its end. -/
def destuffWindow (xs : List Nat) : List Nat :=
  xs.take (xs.length - caduPacketLen) ++
    copyInto (xs.drop (xs.length - caduPacketLen))
      (destuff (xs.drop (xs.length - caduPacketLen)))

/-- Second loop of `reader.Read` (part_001): emit via `copyHRDL`, otherwise
append one more body and destuff the trailing window in place. -/
def readLoop2 : Nat → List Nat → List Nat → Option (List Nat × List Nat × List Nat)
  | 0, _, _ => none
  | fuel + 1, xs, inp =>
    match copyHRDL xs with
    | some (em, rest) => some (em, rest, inp)
    | none =>
      match readCadu inp with
      | none => none
      | some (vs, inp1) => readLoop2 fuel (destuffWindow (xs ++ vs)) inp1

/-- One call of `reader.Read` (part_001 lines 314-349): drain the retained
tail, try to emit from it, otherwise resynchronise (loop 1) and then emit
(loop 2). Returns the emitted slice, the new retained tail and the
remaining input; `none` models `Read` returning an error (EOF). -/
def readM (fuel : Nat) (rest inp : List Nat) :
    Option (List Nat × List Nat × List Nat) :=
  match copyHRDL rest with
  | some (em, r1) => some (em, r1, inp)
  | none =>
    match readLoop1 fuel rest inp with
    | none => none
    | some (xs, inp1) => readLoop2 fuel xs inp1

/-- Drive `reader.Read` to exhaustion, collecting the emitted HRDL slices
in order, as the `reassemble` loop does. -/
def readAll : Nat → List Nat → List Nat → List (List Nat)
  | 0, _, _ => []
  | fuel + 1, rest, inp =>
    match readM (fuel + 1) rest inp with
    | none => []
    | some (em, r1, inp1) => em :: readAll fuel r1 inp1

/-- Errors raised by the `reassemble` packet loop (part_001). -/
inductive ReadError where
  | syncword
  | multiple
deriving DecidableEq

/-- Per-slice guard at the top of the `reassemble` loop (part_001 lines
237-243): `ErrSyncword` when the slice does not start with the sync word,
`ErrMultiple` when `bytes.Index(vs, Word) >= len(Word)`. -/
def sliceCheck (vs : List Nat) : Option ReadError :=
  if ¬ Word.isPrefixOf vs then some ReadError.syncword
  else
    match indexOfSub Word vs with
    | some i => if 4 ≤ i then some ReadError.multiple else none
    | none => none

/-- Packet loop of `reassemble` over the successive slices returned by
`Read`, counting processed packets. A slice failing the guard makes the
whole function return the error (`return nil, nil, Err...`), exactly as in
the source; no further slice is processed. -/
def reassembleLoop : List (List Nat) → Nat → Except ReadError Nat
  | [], n => Except.ok n
  | vs :: rest, n =>
    match sliceCheck vs with
    | some e => Except.error e
    | none => reassembleLoop rest (n + 1)

/-- Builder for one on-wire CADU around a 1008-octet body: 14 header octets
(ignored by `readCadu`), the body, and a 2-octet CRC field. -/
def mkCadu (body : List Nat) : List Nat :=
  List.replicate caduHeaderLen 0 ++ body ++ [0, 0]

/-- Tail-recursive byte-list comparator, used to evaluate equalities of
long concrete byte lists. -/
def eqL : List Nat → List Nat → Bool
  | [], [] => true
  | a :: as, b :: bs => if a = b then eqL as bs else false
  | _, _ => false

/-- Occurrence count of one byte value in a byte list. -/
def countByte (b : Nat) : List Nat → Nat
  | [] => 0
  | x :: xs => if x = b then countByte b xs + 1 else countByte b xs

/-- Soundness of the comparator. -/
theorem eqL_sound : ∀ a b : List Nat, eqL a b = true → a = b := by
  intro a
  induction a with
  | nil => intro b h; cases b with
    | nil => rfl
    | cons y ys => simp [eqL] at h
  | cons x xs ih =>
    intro b h
    cases b with
    | nil => simp [eqL] at h
    | cons y ys =>
      by_cases hxy : x = y
      · subst hxy
        simp only [eqL, if_pos rfl] at h
        rw [ih ys h]
      · simp [eqL, hxy] at h

/-- Successful scans point at an occurrence at or after the start. -/
theorem indexOfSubFrom_some (pat : List Nat) :
    ∀ (l : List Nat) (a r : Nat), indexOfSubFrom pat a l = some r →
      a ≤ r ∧ pat.isPrefixOf (l.drop (r - a)) = true := by
  intro l
  induction l with
  | nil => intro a r h; simp [indexOfSubFrom] at h
  | cons x xs ih =>
    intro a r h
    by_cases hp : pat.isPrefixOf (x :: xs) = true
    · rw [indexOfSubFrom, if_pos hp] at h
      cases h
      constructor
      · exact Nat.le_refl _
      · simpa using hp
    · rw [indexOfSubFrom, if_neg hp] at h
      obtain ⟨h1, h2⟩ := ih (a + 1) r h
      constructor
      · omega
      · have hdrop : (x :: xs).drop (r - a) = xs.drop (r - (a + 1)) := by
          have : r - a = (r - (a + 1)) + 1 := by omega
          rw [this]
          rfl
        rw [hdrop]
        exact h2

/-- Match-arm equation: `readCadu` on a well-formed frame prefix. -/
theorem readCadu_mk (b r : List Nat) (hb : b.length = caduBodyLen) :
    readCadu (mkCadu b ++ r) = some (b, r) := by
  have hb1008 : b.length = 1008 := by
    simpa [caduBodyLen, caduPacketLen, caduHeaderLen, caduCheckLen] using hb
  have hmk : (mkCadu b).length = 1024 := by
    simp [mkCadu, hb1008, caduHeaderLen]
  have hlen : (mkCadu b ++ r).length = 1024 + r.length := by
    simp [hmk]
  have htake : (mkCadu b ++ r).take caduPacketLen = mkCadu b := by
    have : caduPacketLen = (mkCadu b).length := by rw [hmk]; rfl
    rw [this, List.take_left]
  have hdrop : (mkCadu b ++ r).drop caduPacketLen = r := by
    have : caduPacketLen = (mkCadu b).length := by rw [hmk]; rfl
    rw [this, List.drop_left]
  have hinner : ((mkCadu b).drop caduHeaderLen).take caduBodyLen = b := by
    rw [mkCadu, List.append_assoc, List.drop_left' (by simp), List.take_left' hb]
  rw [readCadu, if_neg (by rw [hlen]; simp [caduPacketLen]), htake, hinner, hdrop]

/-- Match-arm equation: `copyHRDL` fails its entry guard. -/
theorem copyHRDL_guard (xs : List Nat)
    (h : xs.length < 8 ∨ ¬ Word.isPrefixOf xs) : copyHRDL xs = none := by
  rw [copyHRDL, if_pos h]

/-- Match-arm equation: no further sync word in the search window. -/
theorem copyHRDL_noScan (xs : List Nat) (off : Nat) (h8 : 8 ≤ xs.length)
    (hpre : Word.isPrefixOf xs) (hoff : chOffset xs = off)
    (hix : indexOfSub Word (xs.drop off) = none) :
    copyHRDL xs = none := by
  rw [copyHRDL, if_neg (by simp [hpre]; omega), hoff, hix]

/-- Match-arm equation: a sync word closes the packet; emit and retain. -/
theorem copyHRDL_scan (xs : List Nat) (off ix : Nat) (h8 : 8 ≤ xs.length)
    (hpre : Word.isPrefixOf xs) (hoff : chOffset xs = off)
    (hix : indexOfSub Word (xs.drop off) = some ix) :
    copyHRDL xs =
      some (xs.take (min (le32at xs 4 + 12) (ix + off)), xs.drop (ix + off)) := by
  rw [copyHRDL, if_neg (by simp [hpre]; omega), hoff, hix]

/-- Match-arm equation: the resynchronising loop finds the sync word in the
freshly appended buffer and destuffs from it. -/
theorem readLoop1_found (f : Nat) (xs inp vs inp1 : List Nat) (ix : Nat)
    (hrc : readCadu inp = some (vs, inp1))
    (hix : indexOfSub Word (xs ++ vs) = some ix) :
    readLoop1 (f + 1) xs inp = some (destuff ((xs ++ vs).drop ix), inp1) := by
  simp only [readLoop1, hrc, hix]

/-- Match-arm equation: the resynchronising loop hits end of input. -/
theorem readLoop1_eof (f : Nat) (xs inp : List Nat)
    (hrc : readCadu inp = none) : readLoop1 (f + 1) xs inp = none := by
  simp only [readLoop1, hrc]

/-- Match-arm equation: the emitting loop emits. -/
theorem readLoop2_emit (f : Nat) (xs inp em rest : List Nat)
    (hc : copyHRDL xs = some (em, rest)) :
    readLoop2 (f + 1) xs inp = some (em, rest, inp) := by
  simp only [readLoop2, hc]

/-- Match-arm equation: the emitting loop appends one more body and
destuffs the trailing window in place. -/
theorem readLoop2_next (f : Nat) (xs inp vs inp1 : List Nat)
    (hc : copyHRDL xs = none) (hrc : readCadu inp = some (vs, inp1)) :
    readLoop2 (f + 1) xs inp = readLoop2 f (destuffWindow (xs ++ vs)) inp1 := by
  simp only [readLoop2, hc, hrc]

/-- Match-arm equation: `Read` emits straight from the retained tail. -/
theorem readM_fromRest (f : Nat) (rest inp em r1 : List Nat)
    (hc : copyHRDL rest = some (em, r1)) :
    readM f rest inp = some (em, r1, inp) := by
  simp only [readM, hc]

/-- Match-arm equation: `Read` resynchronises, then runs the emit loop. -/
theorem readM_resync (f : Nat) (rest inp xs inp1 : List Nat)
    (hc : copyHRDL rest = none) (h1 : readLoop1 f rest inp = some (xs, inp1)) :
    readM f rest inp = readLoop2 f xs inp1 := by
  simp only [readM, hc, h1]

/-- Match-arm equation: `Read` fails on end of input. -/
theorem readM_eof (f : Nat) (rest inp : List Nat)
    (hc : copyHRDL rest = none) (h1 : readLoop1 f rest inp = none) :
    readM f rest inp = none := by
  simp only [readM, hc, h1]

/-- Match-arm equation: the driver collects one emitted slice. -/
theorem readAll_step (f : Nat) (rest inp em r1 inp1 : List Nat)
    (h : readM (f + 1) rest inp = some (em, r1, inp1)) :
    readAll (f + 1) rest inp = em :: readAll f r1 inp1 := by
  simp only [readAll, h]

/-- Match-arm equation: the driver stops at end of input. -/
theorem readAll_eof (f : Nat) (rest inp : List Nat)
    (h : readM (f + 1) rest inp = none) : readAll (f + 1) rest inp = [] := by
  rw [readAll, h]

/-- Unfolding of the in-place window destuff at a known buffer length. -/
theorem destuffWindow_eq (xs : List Nat) (n : Nat) (hn : xs.length = n) :
    destuffWindow xs =
      xs.take (n - caduPacketLen) ++
        copyInto (xs.drop (n - caduPacketLen)) (destuff (xs.drop (n - caduPacketLen))) := by
  rw [destuffWindow, hn]

/-- C1 counterexample: for the wrap pair with previous sequence 0xFFFFFE
and current sequence 0x000001, `Missing` returns 0xFFFFFD = 16777213, not
the 3 the claim expects: the swap on `p.Sequence > c.Sequence` runs before
the masked subtraction, so the 24-bit mask never sees a wrapped delta. -/
theorem C1_wrap_counterexample :
    Missing 1 (some 0xFFFFFE) = 0xFFFFFD ∧ Missing 1 (some 0xFFFFFE) ≠ 3 := by
  constructor <;> decide

/-- C1 (amended): for sequences `p, c < 2^24` with `c = (p + k) % 2^24` and
`2 ≤ k < 2^24`, `Missing` returns `k` only when no wrap occurred
(`p + k < 2^24`); when the sum wraps, it returns `2^24 - k` (or 0 when
that difference is not larger than 1). -/
theorem C1_missing_of_gap (p c k : Nat) (hp : p < 16777216) (hc : c < 16777216)
    (hk2 : 2 ≤ k) (hklt : k < 16777216) (hck : c = (p + k) % 16777216) :
    Missing c (some p) =
      if p + k < 16777216 then k
      else if k + 1 < 16777216 then 16777216 - k else 0 := by
  simp only [Missing, missingPair, missingDelta, and_mask24]
  split_ifs <;> omega

/-- C1 witness: a clean forward gap of 4 (sequences 10 then 14) yields 4. -/
theorem C1_missing_of_gap_witness : Missing 14 (some 10) = 4 := by
  have h := C1_missing_of_gap 10 14 4 (by norm_num) (by norm_num) (by norm_num)
    (by norm_num) (by norm_num)
  simpa using h

/-- C2 (confirmed): `Cadu.Missing` returns 0 when previous is none and
otherwise equals the spec's description — order the pair ascending,
subtract in uint32, mask with 0xFFFFFF, return the delta when above 1. -/
theorem C2_missing_refines_spec :
    ∀ (c : Nat) (p : Option Nat), Missing c p = missingSpec c p := by
  intro c p
  cases p with
  | none => rfl
  | some ps =>
    by_cases h : ps > c <;>
      simp [Missing, missingPair, missingDelta, missingSpec, h]

/-- C7 (confirmed): feeding any chunking of a byte stream to the streaming
accumulator started at 0xFFFF equals the one-shot `calculateCRC` of the
concatenation, and the shared octet step is exactly the spec's bit-serial
recurrence. -/
theorem C7_crc_chunking_and_recurrence :
    (∀ chunks : List (List Nat),
        chunks.foldl ccittWrite CCITT = calculateCRC chunks.flatten) ∧
    (∀ c b : Nat, crcByte c b = crcSpecOctet c b) := by
  constructor
  · intro chunks
    rw [ccittWrite_flatten, calculateCRC]
  · intro c b
    rw [crcByte, crcSpecOctet, crcRounds_spec]

/-- C8 (confirmed): for 32-bit counters, `sequenceDelta` is 0 on an exact
successor (in uint32 arithmetic), `current - last` on a forward jump, and
0 in every other case. -/
theorem C8_sequenceDelta_cases (current last : Nat)
    (hcur : current < 4294967296) (hlast : last < 4294967296) :
    (current = (last + 1) % 4294967296 → sequenceDelta current last = 0) ∧
    (current ≠ (last + 1) % 4294967296 → last < current →
      sequenceDelta current last = current - last) ∧
    (current ≠ (last + 1) % 4294967296 → current ≤ last →
      sequenceDelta current last = 0) ∧
    sequenceDelta current last = sequenceDeltaSpec current last := by
  refine ⟨fun h1 => ?_, fun h1 h2 => ?_, fun h1 h2 => ?_, rfl⟩
  · simp only [sequenceDelta]
    rw [if_pos h1]
  · simp only [sequenceDelta]
    rw [if_neg h1, if_pos h2]
  · simp only [sequenceDelta]
    rw [if_neg h1, if_neg (by omega)]

/-- C8 witness: counters 5 after 2 give a delta of 3. -/
theorem C8_sequenceDelta_witness : sequenceDelta 5 2 = 3 := by
  have h := C8_sequenceDelta_cases 5 2 (by norm_num) (by norm_num)
  exact h.2.1 (by norm_num) (by norm_num)

/-- Demonstration frame for the CADU decoder: 1024 zero octets. -/
def demoC5 : List Nat := List.replicate 1024 0

/-- C5 (amended): with a full 1024-octet frame available, `decodeCadu`
always returns a CADU; its `control` field holds the frame CRC, a checksum
mismatch is recorded as `(want, got)` without failing, and the covered
region — the octets strictly between the sync word and the trailing CRC —
has 1018 octets (4 + 10 + 1008 + 2 = 1024), not the claimed 1022. -/
theorem C5_decode_total_and_covered (s : List Nat)
    (h : caduPacketLen ≤ s.length) :
    ∃ c : Cadu, decodeCadu s = some c ∧
      c.control = be16at s 1022 ∧
      (c.error = none ↔ calculateCRC (coveredRegion s) = be16at s 1022) ∧
      (calculateCRC (coveredRegion s) ≠ be16at s 1022 →
        c.error = some (be16at s 1022, calculateCRC (coveredRegion s))) ∧
      (coveredRegion s).length = 1018 := by
  have hp : caduPacketLen = 1024 := rfl
  rw [hp] at h
  rw [decodeCadu, if_neg (by rw [hp]; omega)]
  refine ⟨_, rfl, rfl, ?_, ?_, ?_⟩
  · by_cases hm : calculateCRC (coveredRegion s) = be16at s 1022
    · simp [hm]
    · simp [hm]
  · intro hm
    simp [hm]
  · simp only [coveredRegion, List.length_drop, List.length_take]
    omega

/-- C5 witness: the decoder applied to the all-zero frame. -/
theorem C5_decode_total_and_covered_witness :
    ∃ c : Cadu, decodeCadu demoC5 = some c ∧
      c.control = be16at demoC5 1022 ∧
      (c.error = none ↔ calculateCRC (coveredRegion demoC5) = be16at demoC5 1022) ∧
      (calculateCRC (coveredRegion demoC5) ≠ be16at demoC5 1022 →
        c.error = some (be16at demoC5 1022, calculateCRC (coveredRegion demoC5))) ∧
      (coveredRegion demoC5).length = 1018 :=
  C5_decode_total_and_covered demoC5 (by simp [demoC5, caduPacketLen])

/-- C5 counterexample: the region between the sync word and the trailing
CRC that the decoder streams through the CRC accumulator has 1018 octets,
not 1022 as the claim states. -/
theorem C5_covered_length_counterexample :
    (coveredRegion demoC5).length = 1018 ∧ (coveredRegion demoC5).length ≠ 1022 := by
  constructor <;> simp [coveredRegion, demoC5]

/-- C6 evaluation: the decoder computes `Replay = ((seq >> 7) == 1)`, a
comparison of the whole shifted word with 1, not a test of bit 7. At the
word 0x00000180 (sequence 1, bit 7 set) the decoded replay flag is false
although bit 7 is 1; at 0x00000080 (sequence 0, bit 7 set) it is true. -/
theorem C6_replay_not_bit7 :
    decodeSeqReplay 0x180 = (1, false) ∧ (0x180 >>> 7) % 2 = 1 ∧
    decodeSeqReplay 0x80 = (0, true) := by
  refine ⟨?_, ?_, ?_⟩ <;> decide

/-- C9 (amended): a slice that fails the guard makes `reassemble` return
the error immediately — no later slice is processed — and the only error
the guard can produce is `ErrSyncword`: after the prefix test passes,
`bytes.Index(vs, Word)` is 0, so the `ErrMultiple` branch never fires. -/
theorem C9_badslice_aborts (vs : List Nat) (rest : List (List Nat))
    (n : Nat) (e : ReadError) (h : sliceCheck vs = some e) :
    reassembleLoop (vs :: rest) n = Except.error e ∧ e = ReadError.syncword := by
  constructor
  · simp only [reassembleLoop, h]
  · by_cases hp : Word.isPrefixOf vs
    · have h0 : indexOfSub Word vs = some 0 := by
        cases vs with
        | nil => simp [Word, List.isPrefixOf] at hp
        | cons x xs =>
          rw [indexOfSub, indexOfSubFrom, if_pos hp]
      rw [sliceCheck, if_neg (by simp [hp]), h0] at h
      simp at h
    · rw [sliceCheck, if_pos hp] at h
      cases h
      rfl

/-- C9 witness: the slice `[0, 0]` aborts the loop with `ErrSyncword`. -/
theorem C9_badslice_aborts_witness :
    reassembleLoop [[0, 0], Word ++ [1, 2, 3, 4]] 0 =
      Except.error ReadError.syncword ∧
    ReadError.syncword = ReadError.syncword :=
  C9_badslice_aborts [0, 0] [Word ++ [1, 2, 3, 4]] 0 ReadError.syncword (by decide)

/-- C9 counterexample: with a bad slice followed by a well-formed slice,
`reassemble` aborts with `ErrSyncword`; it does not skip the bad slice and
process the good one (which would give `ok 1`). -/
theorem C9_no_skip_counterexample :
    reassembleLoop [[0, 0], Word ++ [1, 2, 3, 4]] 0 =
      Except.error ReadError.syncword ∧
    reassembleLoop [[0, 0], Word ++ [1, 2, 3, 4]] 0 ≠ Except.ok 1 := by
  have h : reassembleLoop [[0, 0], Word ++ [1, 2, 3, 4]] 0 =
      Except.error ReadError.syncword := rfl
  exact ⟨h, by rw [h]; intro hc; exact Except.noConfusion hc⟩

/-- C10 (confirmed): when the buffer starts with the sync word, the next
sync word sits at distance `z = ix + chOffset xs`, and the declared length
`size + 12` is smaller than `z`, `copyHRDL` emits exactly the first
`size + 12` octets and retains exactly the suffix from `z`; the octets in
`[size + 12, z)` are the middle part of the decomposition and land in
neither. -/
theorem C10_length_assisted_emit (xs : List Nat) (ix : Nat)
    (hpre : Word.isPrefixOf xs) (h8 : 8 ≤ xs.length)
    (hix : indexOfSub Word (xs.drop (chOffset xs)) = some ix)
    (hs : le32at xs 4 + 12 < ix + chOffset xs) :
    copyHRDL xs =
      some (xs.take (le32at xs 4 + 12), xs.drop (ix + chOffset xs)) ∧
    xs.take (le32at xs 4 + 12) ++
      (xs.take (ix + chOffset xs)).drop (le32at xs 4 + 12) ++
      xs.drop (ix + chOffset xs) = xs := by
  constructor
  · rw [copyHRDL, if_neg (by simp [hpre]; omega), hix]
    simp only [Nat.min_eq_left (Nat.le_of_lt hs)]
  · have h1 : (xs.take (ix + chOffset xs)).take (le32at xs 4 + 12) =
        xs.take (le32at xs 4 + 12) := by
      rw [List.take_take, Nat.min_eq_left (Nat.le_of_lt hs)]
    calc xs.take (le32at xs 4 + 12) ++
          (xs.take (ix + chOffset xs)).drop (le32at xs 4 + 12) ++
          xs.drop (ix + chOffset xs)
        = (xs.take (ix + chOffset xs)).take (le32at xs 4 + 12) ++
          (xs.take (ix + chOffset xs)).drop (le32at xs 4 + 12) ++
          xs.drop (ix + chOffset xs) := by rw [h1]
      _ = xs.take (ix + chOffset xs) ++ xs.drop (ix + chOffset xs) := by
          rw [List.take_append_drop]
      _ = xs := List.take_append_drop _ _

/-- Demonstration buffer for C10: declared size 2 (total 14), next sync
word at offset 20, so six octets are dropped. -/
def demoC10 : List Nat := Word ++ [2, 0, 0, 0] ++ List.replicate 12 9 ++ Word

/-- C10 witness: the 24-octet buffer with declared length 14 and next sync
word at 20 emits its first 14 octets and retains the last 4. -/
theorem C10_length_assisted_emit_witness :
    copyHRDL demoC10 =
      some (demoC10.take (le32at demoC10 4 + 12),
            demoC10.drop (16 + chOffset demoC10)) ∧
    demoC10.take (le32at demoC10 4 + 12) ++
      (demoC10.take (16 + chOffset demoC10)).drop (le32at demoC10 4 + 12) ++
      demoC10.drop (16 + chOffset demoC10) = demoC10 :=
  C10_length_assisted_emit demoC10 16 (by decide) (by decide) (by decide) (by decide)

/-- Every successful `copyHRDL` emission starts with the sync word and has
at least 4 octets (but not necessarily 8: the second sync word can sit as
close as offset 4, and the emitted slice is cut there). -/
theorem copyHRDL_shape (xs em r1 : List Nat)
    (h : copyHRDL xs = some (em, r1)) :
    Word.isPrefixOf em = true ∧ 4 ≤ em.length := by
  by_cases hg : xs.length < 8 ∨ ¬ Word.isPrefixOf xs
  · rw [copyHRDL_guard xs hg] at h
    cases h
  · push_neg at hg
    obtain ⟨h8, hpre⟩ := hg
    cases hix : indexOfSub Word (xs.drop (chOffset xs)) with
    | none =>
      rw [copyHRDL_noScan xs (chOffset xs) (by omega) hpre rfl hix] at h
      cases h
    | some ix =>
      rw [copyHRDL_scan xs (chOffset xs) ix (by omega) hpre rfl hix] at h
      simp only [Option.some.injEq, Prod.mk.injEq] at h
      obtain ⟨hem, _⟩ := h
      have hz4 : 4 ≤ ix + chOffset xs := by
        by_cases hlen : xs.length ≤ defaultOffset
        · rw [chOffset, if_pos hlen]
          omega
        · by_contra hz
          push_neg at hz
          have hz1 : 1 ≤ chOffset xs := by
            rw [chOffset, if_neg hlen]
            simp [defaultOffset, caduBodyLen, caduPacketLen, caduHeaderLen,
              caduCheckLen] at hlen ⊢
            omega
          have hw0 := (indexOfSubFrom_some Word (xs.drop (chOffset xs)) 0 ix hix).2
          rw [Nat.sub_zero, List.drop_drop] at hw0
          obtain ⟨t, ht⟩ := List.isPrefixOf_iff_prefix.mp hpre
          have h123 : chOffset xs + ix = 1 ∨ chOffset xs + ix = 2 ∨
              chOffset xs + ix = 3 := by omega
          rcases h123 with h1 | h1 | h1 <;> rw [h1, ← ht] at hw0 <;>
            simp [Word, List.isPrefixOf] at hw0
      have hs4 : 4 ≤ min (le32at xs 4 + 12) (ix + chOffset xs) :=
        Nat.le_min.mpr ⟨by omega, hz4⟩
      constructor
      · rw [← hem, List.isPrefixOf_iff_prefix]
        exact List.prefix_take_iff.mpr
          ⟨List.isPrefixOf_iff_prefix.mp hpre, by simp [Word]; omega⟩
      · rw [← hem, List.length_take]
        omega

/-- All emissions of the second read loop come from `copyHRDL`. -/
theorem readLoop2_shape : ∀ (f : Nat) (xs inp em r1 inp1 : List Nat),
    readLoop2 f xs inp = some (em, r1, inp1) →
      ∃ ys : List Nat, copyHRDL ys = some (em, r1) := by
  intro f
  induction f with
  | zero =>
    intro xs inp em r1 inp1 h
    rw [readLoop2] at h
    cases h
  | succ g ih =>
    intro xs inp em r1 inp1 h
    rw [readLoop2] at h
    cases hc : copyHRDL xs with
    | some p =>
      rw [hc] at h
      simp only [Option.some.injEq, Prod.mk.injEq] at h
      refine ⟨xs, ?_⟩
      rw [hc, ← h.1, ← h.2.1]
    | none =>
      rw [hc] at h
      cases hrc : readCadu inp with
      | none =>
        rw [hrc] at h
        cases h
      | some q =>
        rw [hrc] at h
        exact ih _ _ _ _ _ h

/-- C3 (amended): every slice emitted by one call of the reassembler's
`Read` begins with the 4-octet HRDL sync word and has length at least 4 —
not 8 as the claim states. -/
theorem C3_emitted_sync_and_min4 (fuel : Nat) (rest inp em r1 inp1 : List Nat)
    (h : readM fuel rest inp = some (em, r1, inp1)) :
    Word.isPrefixOf em = true ∧ 4 ≤ em.length := by
  rw [readM] at h
  cases hc : copyHRDL rest with
  | some p =>
    rw [hc] at h
    simp only [Option.some.injEq, Prod.mk.injEq] at h
    exact copyHRDL_shape rest em r1 (by rw [hc, ← h.1, ← h.2.1])
  | none =>
    rw [hc] at h
    cases h1 : readLoop1 fuel rest inp with
    | none =>
      rw [h1] at h
      cases h
    | some q =>
      rw [h1] at h
      obtain ⟨ys, hys⟩ := readLoop2_shape fuel q.1 q.2 em r1 inp1 h
      exact copyHRDL_shape ys em r1 hys

/-- C3 witness: a retained tail of two adjacent sync words makes `Read`
emit the first sync word as a 4-octet slice. -/
theorem C3_emitted_sync_and_min4_witness :
    Word.isPrefixOf Word = true ∧ 4 ≤ Word.length :=
  C3_emitted_sync_and_min4 1 (Word ++ Word) [] Word Word [] (by decide)

/-- Demonstration stream for C3: one full CADU whose 1008-octet body opens
with two adjacent sync words. -/
def demoC3Body : List Nat := Word ++ Word ++ List.replicate 1000 17

/-- The on-wire CADU framing that body. -/
def demoC3Input : List Nat := mkCadu demoC3Body

/-- C3 counterexample: on a real CADU stream whose payload has a second
sync word at offset 4, the first `Read` call emits a slice of length 4 —
the claim's bound of 8 fails. -/
theorem C3_short_slice_counterexample :
    (readM 2 [] demoC3Input).map (fun t => (t.1, t.1.length)) = some (Word, 4) ∧
    ¬ (8 : Nat) ≤ 4 := by
  constructor
  · decide
  · decide

/-- First CADU body of the C4 demonstration stream: a packet opening with
the sync word and a huge declared size, then filler. -/
def c4body1 : List Nat := Word ++ [255, 255, 255, 0] ++ List.replicate 1000 17

/-- Second CADU body: filler continuing the first packet, the stuffed
marker F8 2E 35 AA at stream offset 1500, more filler, then the second
packet's sync word, declared size, filler, and the distinctive octet 0x77
as the last octet of the body. -/
def c4body2 : List Nat :=
  List.replicate 492 17 ++ Stuff ++ List.replicate 96 17 ++ Word ++
    [255, 255, 255, 0] ++ List.replicate 407 34 ++ [119]

/-- Third CADU body: the second packet's filler, then a closing sync word
with its own header and filler. -/
def c4body3 : List Nat :=
  List.replicate 583 34 ++ Word ++ [255, 255, 255, 0] ++ List.replicate 417 51

/-- The stuffed downlink stream: the three bodies concatenated. -/
def demoC4Raw : List Nat :=
  Word ++ [255, 255, 255, 0] ++ List.replicate 1492 17 ++ Stuff ++
    List.replicate 96 17 ++ Word ++ [255, 255, 255, 0] ++
    List.replicate 407 34 ++ [119] ++ List.replicate 583 34 ++ Word ++
    [255, 255, 255, 0] ++ List.replicate 417 51

/-- The original stream before bit stuffing: identical except that the
marker at offset 1500 is the literal three octets F8 2E 35. It contains
the octet 0x77 exactly once. -/
def demoC4Orig : List Nat :=
  Word ++ [255, 255, 255, 0] ++ List.replicate 1492 17 ++ Word3 ++
    List.replicate 96 17 ++ Word ++ [255, 255, 255, 0] ++
    List.replicate 407 34 ++ [119] ++ List.replicate 583 34 ++ Word ++
    [255, 255, 255, 0] ++ List.replicate 417 51

/-- The three-CADU on-wire input stream for C4. -/
def demoC4Input : List Nat :=
  mkCadu c4body1 ++ (mkCadu c4body2 ++ mkCadu c4body3)

/-- The reassembly buffer after the second body is appended and the
trailing 1024-octet window destuffed in place: `bytes.Replace` shrinks the
window by one octet but Go's `copy` keeps the buffer length, so the last
octet of the old window (0x77 at offset 2015) survives and is now
duplicated after the shifted copy at offset 2014. -/
def c4xs3 : List Nat :=
  Word ++ [255, 255, 255, 0] ++ List.replicate 1492 17 ++ Word3 ++
    List.replicate 96 17 ++ Word ++ [255, 255, 255, 0] ++
    List.replicate 407 34 ++ [119, 119]

/-- The correctly destuffed trailing window (1023 octets). -/
def c4winD : List Nat :=
  List.replicate 508 17 ++ Word3 ++ List.replicate 96 17 ++ Word ++
    [255, 255, 255, 0] ++ List.replicate 407 34 ++ [119]

/-- Length bookkeeping for the C4 stream. -/
theorem c4_length_b1 : c4body1.length = 1008 := by
  simp [c4body1, Word]

/-- Length of the second body. -/
theorem c4_length_b2 : c4body2.length = 1008 := by
  simp [c4body2, Word, Stuff]

/-- Length of the third body. -/
theorem c4_length_b3 : c4body3.length = 1008 := by
  simp [c4body3, Word]

/-- Length of the buffer after the in-place window destuff. -/
theorem c4_length_xs3 : c4xs3.length = 2016 := by
  simp [c4xs3, Word, Word3]

/-- Length of the correctly destuffed window. -/
theorem c4_length_winD : c4winD.length = 1023 := by
  simp [c4winD, Word, Word3]

/-- In-place destuff of the appended window: the marker is replaced and
the window shifts, but the stale final octet 0x77 survives at the end. -/
theorem c4_window : destuffWindow (c4body1 ++ c4body2) = c4xs3 := by
  have hlen : (c4body1 ++ c4body2).length = 2016 := by
    rw [List.length_append, c4_length_b1, c4_length_b2]
  have hwd : destuff ((c4body1 ++ c4body2).drop 992) = c4winD :=
    eqL_sound _ _ (by decide)
  have hdlen : ((c4body1 ++ c4body2).drop 992).length = 1024 := by
    rw [List.length_drop, hlen]
  rw [destuffWindow_eq _ 2016 hlen]
  norm_num [caduPacketLen]
  rw [hwd, copyInto, hdlen, c4_length_winD]
  norm_num
  exact eqL_sound _ _ (by decide)

/-- First `Read` call on the C4 stream: resynchronise on the first body,
fail to emit, append the second body (destuffing the window in place), and
emit the first packet up to the second sync word at offset 1599. -/
theorem c4_step1 : readM 4 [] demoC4Input =
    some (c4xs3.take 1599, c4xs3.drop 1599, mkCadu c4body3) := by
  have hcr : copyHRDL ([] : List Nat) = none := by decide
  have hrc1 : readCadu demoC4Input =
      some (c4body1, mkCadu c4body2 ++ mkCadu c4body3) := by
    rw [demoC4Input]
    exact readCadu_mk _ _ c4_length_b1
  have hix1 : indexOfSub Word ([] ++ c4body1) = some 0 := by decide
  have hde1 : destuff (([] ++ c4body1).drop 0) = c4body1 := eqL_sound _ _ (by decide)
  have hl1 : readLoop1 4 [] demoC4Input =
      some (c4body1, mkCadu c4body2 ++ mkCadu c4body3) := by
    have h := readLoop1_found 3 [] demoC4Input c4body1
      (mkCadu c4body2 ++ mkCadu c4body3) 0 hrc1 hix1
    rw [hde1] at h
    exact h
  have hcop1 : copyHRDL c4body1 = none := by
    refine copyHRDL_noScan c4body1 4 ?_ (by decide) ?_ (by decide)
    · rw [c4_length_b1]
      norm_num
    · rw [chOffset, c4_length_b1]
      norm_num [defaultOffset, caduBodyLen, caduPacketLen, caduHeaderLen,
        caduCheckLen]
  have hrc2 : readCadu (mkCadu c4body2 ++ mkCadu c4body3) =
      some (c4body2, mkCadu c4body3) :=
    readCadu_mk _ _ c4_length_b2
  have hcop2 : copyHRDL c4xs3 = some (c4xs3.take 1599, c4xs3.drop 1599) := by
    have h := copyHRDL_scan c4xs3 1004 595
      (by rw [c4_length_xs3]; norm_num) (by decide)
      (by rw [chOffset, c4_length_xs3]
          norm_num [defaultOffset, caduBodyLen, caduPacketLen, caduHeaderLen,
            caduCheckLen])
      (by decide)
    rw [(by decide : min (le32at c4xs3 4 + 12) (595 + 1004) = 1599)] at h
    norm_num at h
    exact h
  calc readM 4 [] demoC4Input
      = readLoop2 4 c4body1 (mkCadu c4body2 ++ mkCadu c4body3) :=
        readM_resync 4 [] demoC4Input c4body1 _ hcr hl1
    _ = readLoop2 3 c4xs3 (mkCadu c4body3) := by
        have h := readLoop2_next 3 c4body1 (mkCadu c4body2 ++ mkCadu c4body3)
          c4body2 (mkCadu c4body3) hcop1 hrc2
        rw [c4_window] at h
        exact h
    _ = some (c4xs3.take 1599, c4xs3.drop 1599, mkCadu c4body3) :=
        readLoop2_emit 2 c4xs3 (mkCadu c4body3) _ _ hcop2

/-- Second `Read` call: the retained tail holds the second packet's start
(with the duplicated 0x77 pair at its end); the third body is appended and
the packet is emitted up to the closing sync word at offset 1000. -/
theorem c4_step2 : readM 3 (c4xs3.drop 1599) (mkCadu c4body3) =
    some ((c4xs3.drop 1599 ++ c4body3).take 1000,
          (c4xs3.drop 1599 ++ c4body3).drop 1000, []) := by
  have hrest : (c4xs3.drop 1599).length = 417 := by
    rw [List.length_drop, c4_length_xs3]
  have hc : copyHRDL (c4xs3.drop 1599) = none := by
    refine copyHRDL_noScan _ 4 ?_ (by decide) ?_ (by decide)
    · rw [hrest]
      norm_num
    · rw [chOffset, hrest]
      norm_num [defaultOffset, caduBodyLen, caduPacketLen, caduHeaderLen,
        caduCheckLen]
  have hrc : readCadu (mkCadu c4body3) = some (c4body3, []) := by
    have h := readCadu_mk c4body3 [] c4_length_b3
    simpa using h
  have hix : indexOfSub Word (c4xs3.drop 1599 ++ c4body3) = some 0 := by decide
  have hde : destuff ((c4xs3.drop 1599 ++ c4body3).drop 0) =
      c4xs3.drop 1599 ++ c4body3 := eqL_sound _ _ (by decide)
  have hl1 : readLoop1 3 (c4xs3.drop 1599) (mkCadu c4body3) =
      some (c4xs3.drop 1599 ++ c4body3, []) := by
    have h := readLoop1_found 2 (c4xs3.drop 1599) (mkCadu c4body3) c4body3 [] 0
      hrc hix
    rw [hde] at h
    exact h
  have hlen : (c4xs3.drop 1599 ++ c4body3).length = 1425 := by
    rw [List.length_append, hrest, c4_length_b3]
  have hcop : copyHRDL (c4xs3.drop 1599 ++ c4body3) =
      some ((c4xs3.drop 1599 ++ c4body3).take 1000,
            (c4xs3.drop 1599 ++ c4body3).drop 1000) := by
    have h := copyHRDL_scan (c4xs3.drop 1599 ++ c4body3) 413 587
      (by rw [hlen]; norm_num) (by decide)
      (by rw [chOffset, hlen]
          norm_num [defaultOffset, caduBodyLen, caduPacketLen, caduHeaderLen,
            caduCheckLen])
      (by decide)
    rw [(by decide :
      min (le32at (c4xs3.drop 1599 ++ c4body3) 4 + 12) (587 + 413) = 1000)] at h
    norm_num at h
    exact h
  calc readM 3 (c4xs3.drop 1599) (mkCadu c4body3)
      = readLoop2 3 (c4xs3.drop 1599 ++ c4body3) [] :=
        readM_resync 3 (c4xs3.drop 1599) (mkCadu c4body3) _ [] hc hl1
    _ = some ((c4xs3.drop 1599 ++ c4body3).take 1000,
              (c4xs3.drop 1599 ++ c4body3).drop 1000, []) :=
        readLoop2_emit 2 (c4xs3.drop 1599 ++ c4body3) [] _ _ hcop

/-- Third `Read` call: the remaining tail holds the unterminated third
packet and the input is exhausted, so `Read` fails (EOF). -/
theorem c4_step3 : readM 2 ((c4xs3.drop 1599 ++ c4body3).drop 1000) [] = none := by
  have hlen : ((c4xs3.drop 1599 ++ c4body3).drop 1000).length = 425 := by
    rw [List.length_drop, List.length_append, List.length_drop, c4_length_xs3,
      c4_length_b3]
  have hc : copyHRDL ((c4xs3.drop 1599 ++ c4body3).drop 1000) = none := by
    refine copyHRDL_noScan _ 4 ?_ (by decide) ?_ (by decide)
    · rw [hlen]
      norm_num
    · rw [chOffset, hlen]
      norm_num [defaultOffset, caduBodyLen, caduPacketLen, caduHeaderLen,
        caduCheckLen]
  have h1 : readLoop1 2 ((c4xs3.drop 1599 ++ c4body3).drop 1000) [] = none :=
    readLoop1_eof 1 _ _ (by decide)
  exact readM_eof 2 _ _ hc h1

/-- Collected output of the reassembler on the C4 stream: two slices. -/
theorem c4_readAll :
    readAll 4 [] demoC4Input =
      [c4xs3.take 1599, (c4xs3.drop 1599 ++ c4body3).take 1000] := by
  have h1 := readAll_step 3 [] demoC4Input (c4xs3.take 1599) (c4xs3.drop 1599)
    (mkCadu c4body3) c4_step1
  have h2 := readAll_step 2 (c4xs3.drop 1599) (mkCadu c4body3)
    ((c4xs3.drop 1599 ++ c4body3).take 1000)
    ((c4xs3.drop 1599 ++ c4body3).drop 1000) [] c4_step2
  have h3 := readAll_eof 1 ((c4xs3.drop 1599 ++ c4body3).drop 1000) [] c4_step3
  calc readAll 4 [] demoC4Input
      = c4xs3.take 1599 :: readAll 3 (c4xs3.drop 1599) (mkCadu c4body3) := h1
    _ = c4xs3.take 1599 :: ((c4xs3.drop 1599 ++ c4body3).take 1000 ::
          readAll 2 ((c4xs3.drop 1599 ++ c4body3).drop 1000) []) :=
        congrArg (fun l => c4xs3.take 1599 :: l) h2
    _ = [c4xs3.take 1599, (c4xs3.drop 1599 ++ c4body3).take 1000] :=
        congrArg (fun l => c4xs3.take 1599 ::
          ((c4xs3.drop 1599 ++ c4body3).take 1000 :: l)) h3

/-- C4 evaluation at the failing input: the three-CADU stream carries the
original `demoC4Orig` with one payload occurrence of F8 2E 35 stuffed to
F8 2E 35 AA (`destuff demoC4Raw = demoC4Orig`, and the raw stream is
exactly the concatenation of the three bodies fed to the reader). The
original stream contains the octet 0x77 exactly once, but the
reassembler's emitted output contains it twice: the in-place window
destuff (`copy` of a shrunk `bytes.Replace` result) leaves a stale
duplicate of the window's last octet, so the output is not byte-for-byte
the original. -/
theorem C4_roundtrip_broken :
    demoC4Raw = c4body1 ++ (c4body2 ++ c4body3) ∧
    destuff demoC4Raw = demoC4Orig ∧
    countByte 119 demoC4Orig = 1 ∧
    countByte 119 ((readAll 4 [] demoC4Input).flatten) = 2 := by
  refine ⟨eqL_sound _ _ (by decide), eqL_sound _ _ (by decide), by decide, ?_⟩
  rw [c4_readAll]
  decide
end Cadus
